import Mathlib

/-!
Verification of the sync layer of tap-s3-csv (`tap_s3_csv/sync.py`).

The development embeds the three functions of `sync.py` shallowly:

* `set_empty_values_null` (lines 70-89): the recursive null normalizer, over an
  inductive `Value` type modelling Python values (strings, ints, `None`,
  arbitrary other scalars, dicts, lists, tuples).  Python exceptions are
  modelled with `Except`: item assignment on a non-empty tuple raises
  `TypeError`.
* `sync_table_file` (lines 92-131): the per-file row loop.  External
  collaborators (S3, the singer row iterator and transformer) are fields of an
  environment record `Env`; observable side effects (opening the byte stream,
  raising the csv field size limit, emitting records, persisting state) are
  collected in an event trace.
* `sync_stream` (lines 31-67): the per-table orchestrator, which resolves the
  `modified_since` watermark, sorts the discovered files by modification time
  and advances/persists the bookmark after each file.

Machine integers do not occur; timestamps are modelled as `Int` with an
injective rendering `isoformat` standing for `datetime.isoformat`.
-/

set_option linter.unusedVariables false

/-- Exceptions that can propagate out of the embedded code: `TypeError` from
tuple item assignment, schema-validation errors from the singer transformer,
and parse errors from the row iterator. -/
inductive PyError where
  | typeError
  | schemaError (msg : String)
  | parseError (msg : String)
deriving DecidableEq

mutual
/-- Python values as handled by `set_empty_values_null`: strings, ints, `None`,
arbitrary other scalar objects (carrying their `str()` form), dicts, lists and
tuples.  `Fields` and `Items` are the entry chains of dicts and of
lists/tuples. -/
inductive Value where
  | str (s : String)
  | int (n : Int)
  | null
  | obj (strForm : String)
  | dict (fields : Fields)
  | list (items : Items)
  | tuple (items : Items)
deriving DecidableEq
/-- Key/value entries of a Python dict, in insertion order. -/
inductive Fields where
  | nil
  | cons (key : String) (value : Value) (rest : Fields)
deriving DecidableEq
/-- Elements of a Python list or tuple. -/
inductive Items where
  | nil
  | cons (value : Value) (rest : Items)
deriving DecidableEq
end

deriving instance DecidableEq for Except

/-- Python `str.isspace` on a single character (ASCII whitespace; the exotic
Unicode space characters play no role in any property below). -/
def pySpaceChar (c : Char) : Bool :=
  c = ' ' || c = '\t' || c = '\n' || c = '\r' || c = '\x0b' || c = '\x0c'

/-- Python `str.isspace`: true iff the string is non-empty and consists solely
of whitespace characters. -/
def pyIsSpace (s : String) : Bool :=
  !s.data.isEmpty && s.data.all pySpaceChar

/-- The single-quote character Python uses around strings inside `repr`. -/
def qc : String := String.singleton (Char.ofNat 39)

mutual
/-- Python `str()` of a value, as used by the test on line 86 of `sync.py`.
Containers render between brackets (`\x7b...\x7d`, `[...]`, `(...)`); quoting
details inside nested reprs (escape sequences, the trailing comma of
one-element tuples) are not modelled — every property below depends only on
whether the rendering is empty or all-whitespace, which the opening bracket
character already decides for containers. -/
def pyStr : Value → String
  | .str s => s
  | .int n => toString n
  | .null => "None"
  | .obj strForm => strForm
  | .dict fs => "\x7b" ++ pyStrFields fs ++ "\x7d"
  | .list xs => "[" ++ pyStrItems xs ++ "]"
  | .tuple xs => "(" ++ pyStrItems xs ++ ")"
/-- Python `repr()` of a value occurring inside a container rendering. -/
def pyRepr : Value → String
  | .str s => qc ++ s ++ qc
  | .int n => toString n
  | .null => "None"
  | .obj strForm => strForm
  | .dict fs => "\x7b" ++ pyStrFields fs ++ "\x7d"
  | .list xs => "[" ++ pyStrItems xs ++ "]"
  | .tuple xs => "(" ++ pyStrItems xs ++ ")"
/-- Rendering of dict entries, comma separated. -/
def pyStrFields : Fields → String
  | .nil => ""
  | .cons k v .nil => qc ++ k ++ qc ++ ": " ++ pyRepr v
  | .cons k v rest => qc ++ k ++ qc ++ ": " ++ pyRepr v ++ ", " ++ pyStrFields rest
/-- Rendering of list/tuple elements, comma separated. -/
def pyStrItems : Items → String
  | .nil => ""
  | .cons v .nil => pyRepr v
  | .cons v rest => pyRepr v ++ ", " ++ pyStrItems rest
end

/-- The test on line 86 of `sync.py`: `input_row == "" or str(input_row).isspace()`.
Only the string `""` compares equal to `""` in Python; every value is put
through the `isspace` test on its `str()` form. -/
def isEmptyOrSpace (v : Value) : Bool :=
  (match v with | .str s => s == "" | _ => false) || pyIsSpace (pyStr v)

/-- Lines 86-87 of `sync.py`: after the container children have been scrubbed,
replace the whole value by `None` when the original is empty or all spaces,
otherwise keep the scrubbed copy. -/
def scrub (orig ret : Value) : Value :=
  if isEmptyOrSpace orig then .null else ret

mutual
/-- `set_empty_values_null` (sync.py lines 70-89).  The Python function
deep-copies its argument, recursively scrubs dict values and list/tuple
elements in place on the copy, and finally replaces the result by `None` when
the original value is the empty string or all whitespace.  For a non-empty
tuple the statement `ret[dict_key] = set_empty_values_null(dict_value)` first
evaluates its right-hand side for the first element and then raises
`TypeError`, because tuples do not support item assignment. -/
def set_empty_values_null : Value → Except PyError Value
  | .dict fs =>
    match senvFields fs with
    | .error e => .error e
    | .ok gs => .ok (scrub (.dict fs) (.dict gs))
  | .list xs =>
    match senvItems xs with
    | .error e => .error e
    | .ok ys => .ok (scrub (.list xs) (.list ys))
  | .tuple .nil => .ok (scrub (.tuple .nil) (.tuple .nil))
  | .tuple (.cons x xs) =>
    match set_empty_values_null x with
    | .error e => .error e
    | .ok _ => .error .typeError
  | .str s => .ok (scrub (.str s) (.str s))
  | .int n => .ok (scrub (.int n) (.int n))
  | .null => .ok (scrub .null .null)
  | .obj f => .ok (scrub (.obj f) (.obj f))
/-- The dict branch of the recursion (lines 79-81). -/
def senvFields : Fields → Except PyError Fields
  | .nil => .ok .nil
  | .cons k v rest =>
    match set_empty_values_null v with
    | .error e => .error e
    | .ok w =>
      match senvFields rest with
      | .error e => .error e
      | .ok ws => .ok (.cons k w ws)
/-- The list branch of the recursion (lines 82-84). -/
def senvItems : Items → Except PyError Items
  | .nil => .ok .nil
  | .cons v rest =>
    match set_empty_values_null v with
    | .error e => .error e
    | .ok w =>
      match senvItems rest with
      | .error e => .error e
      | .ok ws => .ok (.cons w ws)
end

/-- A helper: a string whose first character is not whitespace is not
all-whitespace. -/
theorem pyIsSpace_wrap (l s r : String) (c : Char) (cs : List Char)
    (hd : l.data = c :: cs) (hns : pySpaceChar c = false) :
    pyIsSpace (l ++ s ++ r) = false := by
  simp [pyIsSpace, String.data_append, hd, hns]

/-- Dicts never pass the empty-or-whitespace test: their `str()` starts with a
brace. -/
theorem isEmptyOrSpace_dict (fs : Fields) : isEmptyOrSpace (.dict fs) = false := by
  simp only [isEmptyOrSpace, pyStr]
  rw [pyIsSpace_wrap _ _ _ (Char.ofNat 123) [] rfl (by decide)]
  simp

/-- Lists never pass the empty-or-whitespace test: their `str()` starts with a
bracket. -/
theorem isEmptyOrSpace_list (xs : Items) : isEmptyOrSpace (.list xs) = false := by
  simp only [isEmptyOrSpace, pyStr]
  rw [pyIsSpace_wrap _ _ _ (Char.ofNat 91) [] rfl (by decide)]
  simp

/-- Tuples never pass the empty-or-whitespace test: their `str()` starts with a
parenthesis. -/
theorem isEmptyOrSpace_tuple (xs : Items) : isEmptyOrSpace (.tuple xs) = false := by
  simp only [isEmptyOrSpace, pyStr]
  rw [pyIsSpace_wrap _ _ _ (Char.ofNat 40) [] rfl (by decide)]
  simp

mutual
/-- Values produced by a successful run of the normalizer are fixed points of
the normalizer. -/
theorem senv_fix : ∀ (v r : Value),
    set_empty_values_null v = .ok r → set_empty_values_null r = .ok r
  | .dict fs, r, h => by
    cases hg : senvFields fs with
    | error e => simp [set_empty_values_null, hg] at h
    | ok gs =>
      simp [set_empty_values_null, hg, scrub, isEmptyOrSpace_dict] at h
      subst h
      simp [set_empty_values_null, senvFields_fix fs gs hg, scrub, isEmptyOrSpace_dict]
  | .list xs, r, h => by
    cases hg : senvItems xs with
    | error e => simp [set_empty_values_null, hg] at h
    | ok ys =>
      simp [set_empty_values_null, hg, scrub, isEmptyOrSpace_list] at h
      subst h
      simp [set_empty_values_null, senvItems_fix xs ys hg, scrub, isEmptyOrSpace_list]
  | .tuple .nil, r, h => by
    have hc : isEmptyOrSpace (.tuple .nil) = false := isEmptyOrSpace_tuple .nil
    simp [set_empty_values_null, scrub, hc] at h
    subst h
    simp [set_empty_values_null, scrub, hc]
  | .tuple (.cons x xs), r, h => by
    cases hx : set_empty_values_null x with
    | error e => simp [set_empty_values_null, hx] at h
    | ok w => simp [set_empty_values_null, hx] at h
  | .str s, r, h => by
    by_cases hc : isEmptyOrSpace (.str s)
    · simp [set_empty_values_null, scrub, hc] at h
      subst h
      rfl
    · simp [set_empty_values_null, scrub, hc] at h
      subst h
      simp [set_empty_values_null, scrub, hc]
  | .int n, r, h => by
    by_cases hc : isEmptyOrSpace (.int n)
    · simp [set_empty_values_null, scrub, hc] at h
      subst h
      rfl
    · simp [set_empty_values_null, scrub, hc] at h
      subst h
      simp [set_empty_values_null, scrub, hc]
  | .null, r, h => by
    simp [set_empty_values_null, scrub, show isEmptyOrSpace .null = false from rfl] at h
    subst h
    rfl
  | .obj f, r, h => by
    by_cases hc : isEmptyOrSpace (.obj f)
    · simp [set_empty_values_null, scrub, hc] at h
      subst h
      rfl
    · simp [set_empty_values_null, scrub, hc] at h
      subst h
      simp [set_empty_values_null, scrub, hc]
/-- Dict entry chains produced by a successful run of the normalizer are fixed
points. -/
theorem senvFields_fix : ∀ (fs gs : Fields),
    senvFields fs = .ok gs → senvFields gs = .ok gs
  | .nil, gs, h => by
    simp [senvFields] at h
    subst h
    rfl
  | .cons k v rest, gs, h => by
    cases hv : set_empty_values_null v with
    | error e => simp [senvFields, hv] at h
    | ok w =>
      cases hr : senvFields rest with
      | error e => simp [senvFields, hv, hr] at h
      | ok ws =>
        simp [senvFields, hv, hr] at h
        subst h
        simp [senvFields, senv_fix v w hv, senvFields_fix rest ws hr]
/-- Item chains produced by a successful run of the normalizer are fixed
points. -/
theorem senvItems_fix : ∀ (xs ys : Items),
    senvItems xs = .ok ys → senvItems ys = .ok ys
  | .nil, ys, h => by
    simp [senvItems] at h
    subst h
    rfl
  | .cons v rest, ys, h => by
    cases hv : set_empty_values_null v with
    | error e => simp [senvItems, hv] at h
    | ok w =>
      cases hr : senvItems rest with
      | error e => simp [senvItems, hv, hr] at h
      | ok ws =>
        simp [senvItems, hv, hr] at h
        subst h
        simp [senvItems, senv_fix v w hv, senvItems_fix rest ws hr]
end

/-- Scalars other than strings, for the classification part of claim C5. -/
def isNonStrScalar : Value → Bool
  | .int _ => true
  | .null => true
  | .obj _ => true
  | _ => false

/-- Claim C4 (code bug witness): on the one-element tuple `("",)` the code
raises `TypeError` instead of returning a scrubbed copy — `ret` is a tuple and
`ret[dict_key] = ...` is item assignment on a tuple, contradicting the
function's own comment that it handles tuples. -/
theorem normalizer_tuple_raises :
    set_empty_values_null (Value.tuple (Items.cons (Value.str "") Items.nil))
      = .error PyError.typeError := rfl

/-- Claim C5: the normalizer maps `""` and whitespace-only strings to null,
keeps `"a"` and `0` unchanged, and for every non-string scalar applies the
whitespace test to the scalar's `str()` form, replacing it by null itself
(never by the stringified form) exactly when the test qualifies. -/
theorem normalizer_scalar_cases :
    set_empty_values_null (Value.str "") = .ok Value.null
    ∧ set_empty_values_null (Value.str "   ") = .ok Value.null
    ∧ set_empty_values_null (Value.str "a") = .ok (Value.str "a")
    ∧ set_empty_values_null (Value.int 0) = .ok (Value.int 0)
    ∧ ∀ v : Value, isNonStrScalar v = true →
        set_empty_values_null v
          = .ok (if pyIsSpace (pyStr v) then Value.null else v) := by
  refine ⟨rfl, rfl, rfl, rfl, ?_⟩
  intro v hv
  cases v <;> simp [isNonStrScalar] at hv <;>
    simp [set_empty_values_null, scrub, isEmptyOrSpace]

/-- Witness for claim C5: a non-string scalar whose `str()` form is a single
space is replaced by null itself, not by the stringified form. -/
theorem normalizer_scalar_cases_witness :
    isNonStrScalar (Value.obj " ") = true
    ∧ set_empty_values_null (Value.obj " ") = .ok Value.null := by
  have h := normalizer_scalar_cases.2.2.2.2 (Value.obj " ") rfl
  refine ⟨rfl, ?_⟩
  rw [h]
  rfl

/-- Claim C6: the normalizer is idempotent — running it on the result of a
successful run returns that result unchanged, and a raising run raises the
same exception at the point it is re-applied. -/
theorem normalizer_idempotent (v : Value) :
    (match set_empty_values_null v with
      | .error e => (.error e : Except PyError Value)
      | .ok r => set_empty_values_null r)
      = set_empty_values_null v := by
  cases h : set_empty_values_null v with
  | error e => rfl
  | ok r => exact senv_fix v r h

/-- Timestamps (`datetime` values): modelled as integers, ordered as the
underlying points in time. -/
abbrev Timestamp := Int

/-- The `isoformat()` rendering of a timestamp, modelled as an injective
rendering into strings; no property below depends on its concrete shape. -/
def isoformat (t : Timestamp) : String := toString t

/-- One discovered file: the dict `\x7bkey, last_modified\x7d` returned by the
discovery collaborator. -/
structure S3File where
  key : String
  last_modified : Timestamp
deriving DecidableEq

/-- The tap configuration entries read by `sync.py`: `bucket` and `start_date`
are required lookups, `table_suffix` and `set_empty_values_null` are optional
(`config.get` with defaults `""` and `False`). -/
structure Config where
  bucket : String
  start_date : String
  table_suffix : Option String
  set_empty_values_null : Option Bool

/-- The table spec; only its `table_name` entry is read by `sync.py` itself,
the rest is owned by the external collaborators. -/
structure TableSpec where
  table_name : String

/-- The stream definition: schema and metadata dicts. -/
structure StreamDef where
  schema : Value
  metadata : Value

/-- The handle returned by `s3.get_file_handle`; `raw_stream` stands for its
`_raw_stream` byte stream, identified abstractly. -/
structure FileHandle where
  raw_stream : String

/-- Model of the external singer state mapping (§6 of the spec): table name to
named bookmarks. -/
structure SState where
  bookmarks : List (String × List (String × String))
deriving DecidableEq

/-- Association-list lookup (Python dict read). -/
def lookupA {α : Type} : List (String × α) → String → Option α
  | [], _ => none
  | (k, v) :: rest, key => if k == key then some v else lookupA rest key

/-- Association-list update (Python dict write). -/
def setA {α : Type} : List (String × α) → String → α → List (String × α)
  | [], key, v => [(key, v)]
  | (k, w) :: rest, key, v =>
    if k == key then (k, v) :: rest else (k, w) :: setA rest key v

/-- Model of singer `get_bookmark(state, table_name, key)` (§6). -/
def get_bookmark (state : SState) (table key : String) : Option String :=
  match lookupA state.bookmarks table with
  | none => none
  | some tb => lookupA tb key

/-- Model of singer `write_bookmark(state, table_name, key, value)` (§6): the
updated state mapping. -/
def write_bookmark (state : SState) (table key value : String) : SState :=
  ⟨setA state.bookmarks table (setA ((lookupA state.bookmarks table).getD []) key value)⟩

/-- Observable side effects of a sync run, in order of occurrence: the
discovery listing, acquiring a file's byte stream, raising the csv field size
limit, emitting a record (`write_record`), persisting the state
(`write_state`), and closing a byte stream.  `sync.py` contains no call that
would emit `closedFile`; the constructor exists so that the release claim is
statable. -/
inductive Event where
  | listedFiles (since : Timestamp)
  | openedFile (key : String)
  | setFieldSizeLimit
  | wroteRecord (table : String) (record : Value) (time_extracted : Timestamp)
  | wroteState (state : SState)
  | closedFile (stream : String)
deriving DecidableEq

/-- Outcome of a piece of effectful Python code: a value or a propagating
exception, together with the trace of side effects that happened before the
exit. -/
inductive Res (α : Type) where
  | ok (val : α) (tr : List Event)
  | err (e : PyError) (tr : List Event)
deriving DecidableEq

/-- The events of an outcome. -/
def traceOf {α : Type} : Res α → List Event
  | .ok _ tr => tr
  | .err _ tr => tr

/-- Modelled from the spec: the external collaborators of §6.  The two `s3`
functions are code of this repository that is not under `src/`
(`tap_s3_csv/s3.py`); they are modelled from the spec solely through their
interface types — discovery returns file descriptors in no guaranteed order,
fetch returns a byte-stream handle.  The remaining fields model the
third-party singer collaborators: the row iterator yields a finite row
sequence and then possibly raises a parse error; the transformer
validates/coerces one row and raises on schema violations; `strptime_with_tz`
parses a timestamp string; `now` is the extraction clock (no property depends
on its value). -/
structure Env where
  get_input_files_for_table : Config → TableSpec → Timestamp → List S3File
  get_file_handle : Config → String → FileHandle
  get_row_iterator : String → TableSpec → List Value × Option PyError
  transform : Value → Value → Value → Except PyError Value
  metadata_to_map : Value → Value
  strptime_with_tz : String → Timestamp
  now : Timestamp

/-- Line 40 (and 104): the effective table name is the spec name plus the
configured suffix. -/
def tableNameOf (config : Config) (table_spec : TableSpec) : String :=
  table_spec.table_name ++ config.table_suffix.getD ""

/-- Python `x or y` as used on line 41: `None` and the empty string are both
falsy, so an absent or empty bookmark falls back to `y`. -/
def pyOr (x : Option String) (y : String) : String :=
  match x with
  | some s => if s == "" then y else s
  | none => y

/-- Line 41: the starting watermark, `strptime_with_tz(get_bookmark(...) or
config["start_date"])`. -/
def resolvedWatermark (env : Env) (config : Config) (state : SState)
    (table_name : String) : Timestamp :=
  env.strptime_with_tz (pyOr (get_bookmark state table_name "modified_since") config.start_date)

/-- Lines 120-126, the per-row pipeline: optionally normalize the row (iff the
`set_empty_values_null` config flag is set), then transform it against the
stream's schema and metadata map. -/
def rowOutcome (env : Env) (config : Config) (stream : StreamDef) (row : Value) :
    Except PyError Value :=
  match (if config.set_empty_values_null.getD false
          then set_empty_values_null row else .ok row) with
  | .error e => .error e
  | .ok r => env.transform r stream.schema (env.metadata_to_map stream.metadata)

/-- The `for row in iterator` loop of `sync_table_file` (lines 119-129): per
row capture the extraction time, normalize/transform, emit the record, count
it.  A raising row aborts the loop; the records already emitted stay in the
trace. -/
def rowLoop (env : Env) (config : Config) (table_name : String) (stream : StreamDef) :
    List Value → Res Nat
  | [] => .ok 0 []
  | row :: rest =>
    let time_extracted := env.now
    match rowOutcome env config stream row with
    | .error e => .err e []
    | .ok to_write =>
      match rowLoop env config table_name stream rest with
      | .ok n tr => .ok (n + 1) (.wroteRecord table_name to_write time_extracted :: tr)
      | .err e tr => .err e (.wroteRecord table_name to_write time_extracted :: tr)

/-- `sync_table_file` (lines 92-131): read `bucket`, compute the table name,
acquire the byte stream, raise the csv field size limit, obtain the row
iterator and run the row loop; when the iterator's lazy parse failure fires it
does so after the yielded rows were consumed.  The function returns the number
of records synced.  No exit path closes the byte stream. -/
def sync_table_file (env : Env) (config : Config) (s3_path : String)
    (table_spec : TableSpec) (stream : StreamDef) : Res Nat :=
  let bucket := config.bucket
  let table_name := tableNameOf config table_spec
  let s3_file_handle := env.get_file_handle config s3_path
  let it := env.get_row_iterator s3_file_handle.raw_stream table_spec
  match rowLoop env config table_name stream it.1 with
  | .err e tr => .err e (.openedFile s3_path :: .setFieldSizeLimit :: tr)
  | .ok n tr =>
    match it.2 with
    | some e => .err e (.openedFile s3_path :: .setFieldSizeLimit :: tr)
    | none => .ok n (.openedFile s3_path :: .setFieldSizeLimit :: tr)

/-- The comparison used by `sorted(s3_files, key=lambda item: item["last_modified"])`. -/
def byModTime (a b : S3File) : Prop := a.last_modified ≤ b.last_modified

instance byModTimeDecidable : DecidableRel byModTime :=
  fun a b => inferInstanceAs (Decidable (a.last_modified ≤ b.last_modified))

instance byModTimeTotal : IsTotal S3File byModTime :=
  ⟨fun a b => le_total a.last_modified b.last_modified⟩

instance byModTimeTrans : IsTrans S3File byModTime :=
  ⟨fun _ _ _ hab hbc => le_trans hab hbc⟩

/-- Line 54: Python `sorted` on the discovered files — a stable ascending sort
by modification time, modelled by insertion sort. -/
def sortedFiles (fs : List S3File) : List S3File :=
  List.insertionSort byModTime fs

/-- The per-file loop of `sync_stream` (lines 54-63): sync the file, update the
table's `modified_since` bookmark to the file's modification timestamp, persist
the state, continue with the next file.  An exception from the file sync
propagates; the bookmark write and state persistence for that file never
happen. -/
def syncFilesLoop (env : Env) (config : Config) (table_spec : TableSpec)
    (stream : StreamDef) (table_name : String) :
    List S3File → SState → Nat → Res (Nat × SState)
  | [], state, acc => .ok (acc, state) []
  | f :: rest, state, acc =>
    match sync_table_file env config f.key table_spec stream with
    | .err e tr => .err e tr
    | .ok n tr =>
      let state2 := write_bookmark state table_name "modified_since" (isoformat f.last_modified)
      match syncFilesLoop env config table_spec stream table_name rest state2 (acc + n) with
      | .ok r tr2 => .ok r (tr ++ Event.wroteState state2 :: tr2)
      | .err e tr2 => .err e (tr ++ Event.wroteState state2 :: tr2)

/-- `sync_stream` (lines 31-67): resolve the watermark, list the eligible
files, sort them by modification time and run the per-file loop.  The result
carries the record count together with the final value of the local `state`
(singer's `write_bookmark` mutates the caller's state dict in place; the
returned state models that). -/
def sync_stream (env : Env) (config : Config) (state : SState)
    (table_spec : TableSpec) (stream : StreamDef) : Res (Nat × SState) :=
  let table_name := tableNameOf config table_spec
  let modified_since := resolvedWatermark env config state table_name
  let s3_files := env.get_input_files_for_table config table_spec modified_since
  match syncFilesLoop env config table_spec stream table_name (sortedFiles s3_files) state 0 with
  | .ok r tr => .ok r (.listedFiles modified_since :: tr)
  | .err e tr => .err e (.listedFiles modified_since :: tr)

/-- The files `sync_stream` receives from discovery for the given inputs. -/
def discoveredFiles (env : Env) (config : Config) (state : SState)
    (table_spec : TableSpec) : List S3File :=
  env.get_input_files_for_table config table_spec
    (resolvedWatermark env config state (tableNameOf config table_spec))

/-- The files in the order `sync_stream` iterates over them. -/
def processedFiles (env : Env) (config : Config) (state : SState)
    (table_spec : TableSpec) : List S3File :=
  sortedFiles (discoveredFiles env config state table_spec)

/-- Unfolding of `sync_stream` in terms of the named pieces. -/
theorem sync_stream_eq (env : Env) (config : Config) (state : SState)
    (table_spec : TableSpec) (stream : StreamDef) :
    sync_stream env config state table_spec stream
      = match syncFilesLoop env config table_spec stream (tableNameOf config table_spec)
            (processedFiles env config state table_spec) state 0 with
        | .ok r tr => .ok r
            (.listedFiles (resolvedWatermark env config state (tableNameOf config table_spec)) :: tr)
        | .err e tr => .err e
            (.listedFiles (resolvedWatermark env config state (tableNameOf config table_spec)) :: tr) := rfl

/-- The persisted bookmark value carried by each `write_state` event of a
trace, in order of persistence. -/
def stateBms (table : String) (tr : List Event) : List (Option String) :=
  tr.filterMap (fun e => match e with
    | .wroteState s => some (get_bookmark s table "modified_since")
    | _ => none)

/-- The keys of the files opened in a trace, in order. -/
def openedKeys (tr : List Event) : List String :=
  tr.filterMap (fun e => match e with | .openedFile k => some k | _ => none)

/-- The open/persist skeleton of a trace, used to state that the state is
persisted after a file and before the next file is opened. -/
inductive Obs where
  | opened (key : String)
  | persisted
deriving DecidableEq

/-- Projection of a trace onto its open/persist skeleton. -/
def obsOf (tr : List Event) : List Obs :=
  tr.filterMap (fun e => match e with
    | .openedFile k => some (.opened k)
    | .wroteState _ => some .persisted
    | _ => none)

theorem stateBms_nil (t : String) : stateBms t [] = [] := rfl

theorem stateBms_append (t : String) (l1 l2 : List Event) :
    stateBms t (l1 ++ l2) = stateBms t l1 ++ stateBms t l2 := by
  simp [stateBms]

theorem stateBms_listed (t : String) (ts : Timestamp) (l : List Event) :
    stateBms t (.listedFiles ts :: l) = stateBms t l := rfl

theorem stateBms_opened (t k : String) (l : List Event) :
    stateBms t (.openedFile k :: l) = stateBms t l := rfl

theorem stateBms_fsl (t : String) (l : List Event) :
    stateBms t (.setFieldSizeLimit :: l) = stateBms t l := rfl

theorem stateBms_record (t tb : String) (w : Value) (ts : Timestamp) (l : List Event) :
    stateBms t (.wroteRecord tb w ts :: l) = stateBms t l := rfl

theorem stateBms_state (t : String) (s : SState) (l : List Event) :
    stateBms t (.wroteState s :: l)
      = get_bookmark s t "modified_since" :: stateBms t l := rfl

theorem openedKeys_nil : openedKeys [] = [] := rfl

theorem openedKeys_append (l1 l2 : List Event) :
    openedKeys (l1 ++ l2) = openedKeys l1 ++ openedKeys l2 := by
  simp [openedKeys]

theorem openedKeys_listed (ts : Timestamp) (l : List Event) :
    openedKeys (.listedFiles ts :: l) = openedKeys l := rfl

theorem openedKeys_opened (k : String) (l : List Event) :
    openedKeys (.openedFile k :: l) = k :: openedKeys l := rfl

theorem openedKeys_fsl (l : List Event) :
    openedKeys (.setFieldSizeLimit :: l) = openedKeys l := rfl

theorem openedKeys_record (tb : String) (w : Value) (ts : Timestamp) (l : List Event) :
    openedKeys (.wroteRecord tb w ts :: l) = openedKeys l := rfl

theorem openedKeys_state (s : SState) (l : List Event) :
    openedKeys (.wroteState s :: l) = openedKeys l := rfl

theorem obsOf_nil : obsOf [] = [] := rfl

theorem obsOf_append (l1 l2 : List Event) :
    obsOf (l1 ++ l2) = obsOf l1 ++ obsOf l2 := by
  simp [obsOf]

theorem obsOf_listed (ts : Timestamp) (l : List Event) :
    obsOf (.listedFiles ts :: l) = obsOf l := rfl

theorem obsOf_opened (k : String) (l : List Event) :
    obsOf (.openedFile k :: l) = .opened k :: obsOf l := rfl

theorem obsOf_fsl (l : List Event) :
    obsOf (.setFieldSizeLimit :: l) = obsOf l := rfl

theorem obsOf_record (tb : String) (w : Value) (ts : Timestamp) (l : List Event) :
    obsOf (.wroteRecord tb w ts :: l) = obsOf l := rfl

theorem obsOf_state (s : SState) (l : List Event) :
    obsOf (.wroteState s :: l) = .persisted :: obsOf l := rfl

/-- Updating an association list and reading the same key back. -/
theorem lookupA_setA_self {α : Type} (l : List (String × α)) (key : String) (v : α) :
    lookupA (setA l key v) key = some v := by
  induction l with
  | nil => simp [setA, lookupA]
  | cons p rest ih =>
    obtain ⟨k, w⟩ := p
    cases hk : (k == key) with
    | true => simp [setA, hk, lookupA]
    | false => simp [setA, hk, lookupA, ih]

/-- Reading a bookmark back immediately after writing it. -/
theorem get_write_bookmark (state : SState) (table key value : String) :
    get_bookmark (write_bookmark state table key value) table key = some value := by
  simp [get_bookmark, write_bookmark, lookupA_setA_self]

/-- Every event emitted by the row loop is a record emission. -/
theorem rowLoop_events (env : Env) (config : Config) (table_name : String)
    (stream : StreamDef) :
    ∀ (rows : List Value) (e : Event),
      e ∈ traceOf (rowLoop env config table_name stream rows) →
      ∃ t w ts, e = Event.wroteRecord t w ts := by
  intro rows
  induction rows with
  | nil => intro e he; simp [rowLoop, traceOf] at he
  | cons row rest ih =>
    intro e he
    cases hro : rowOutcome env config stream row with
    | error er => simp [rowLoop, hro, traceOf] at he
    | ok w =>
      cases hrec : rowLoop env config table_name stream rest with
      | ok n tr =>
        simp [rowLoop, hro, hrec, traceOf] at he
        rcases he with he | he
        · exact ⟨_, _, _, he⟩
        · exact ih e (by rw [hrec]; simpa [traceOf] using he)
      | err er tr =>
        simp [rowLoop, hro, hrec, traceOf] at he
        rcases he with he | he
        · exact ⟨_, _, _, he⟩
        · exact ih e (by rw [hrec]; simpa [traceOf] using he)

/-- The trace of one file sync: the opened-stream event, the field-size-limit
event, then only record emissions — in particular no `closedFile` and no
`wroteState` event. -/
theorem sync_table_file_trace (env : Env) (config : Config) (s3_path : String)
    (table_spec : TableSpec) (stream : StreamDef) :
    ∃ tr, traceOf (sync_table_file env config s3_path table_spec stream)
        = .openedFile s3_path :: .setFieldSizeLimit :: tr
      ∧ ∀ e ∈ tr, ∃ t w ts, e = Event.wroteRecord t w ts := by
  cases hrl : rowLoop env config (tableNameOf config table_spec) stream
      (env.get_row_iterator (env.get_file_handle config s3_path).raw_stream table_spec).1 with
  | err e tr =>
    refine ⟨tr, by simp [sync_table_file, hrl, traceOf], ?_⟩
    intro e2 he2
    exact rowLoop_events env config _ stream _ e2 (by rw [hrl]; simpa [traceOf] using he2)
  | ok n tr =>
    cases hp : (env.get_row_iterator (env.get_file_handle config s3_path).raw_stream table_spec).2 with
    | none =>
      refine ⟨tr, by simp [sync_table_file, hrl, hp, traceOf], ?_⟩
      intro e2 he2
      exact rowLoop_events env config _ stream _ e2 (by rw [hrl]; simpa [traceOf] using he2)
    | some e3 =>
      refine ⟨tr, by simp [sync_table_file, hrl, hp, traceOf], ?_⟩
      intro e2 he2
      exact rowLoop_events env config _ stream _ e2 (by rw [hrl]; simpa [traceOf] using he2)

/-- A file sync persists no state. -/
theorem stateBms_sync_table_file (env : Env) (config : Config) (s3_path : String)
    (table_spec : TableSpec) (stream : StreamDef) (t : String) :
    stateBms t (traceOf (sync_table_file env config s3_path table_spec stream)) = [] := by
  obtain ⟨tr, htr, hall⟩ := sync_table_file_trace env config s3_path table_spec stream
  rw [htr, stateBms_opened, stateBms_fsl]
  rw [stateBms, List.filterMap_eq_nil_iff]
  intro e he
  obtain ⟨t2, w, ts, rfl⟩ := hall e he
  rfl

/-- A file sync opens exactly its own byte stream. -/
theorem openedKeys_sync_table_file (env : Env) (config : Config) (s3_path : String)
    (table_spec : TableSpec) (stream : StreamDef) :
    openedKeys (traceOf (sync_table_file env config s3_path table_spec stream)) = [s3_path] := by
  obtain ⟨tr, htr, hall⟩ := sync_table_file_trace env config s3_path table_spec stream
  rw [htr, openedKeys_opened, openedKeys_fsl]
  rw [openedKeys, List.filterMap_eq_nil_iff.mpr ?_]
  · intro e he
    obtain ⟨t2, w, ts, rfl⟩ := hall e he
    rfl

/-- The open/persist skeleton of a file sync is just its own opening. -/
theorem obsOf_sync_table_file (env : Env) (config : Config) (s3_path : String)
    (table_spec : TableSpec) (stream : StreamDef) :
    obsOf (traceOf (sync_table_file env config s3_path table_spec stream))
      = [Obs.opened s3_path] := by
  obtain ⟨tr, htr, hall⟩ := sync_table_file_trace env config s3_path table_spec stream
  rw [htr, obsOf_opened, obsOf_fsl]
  rw [obsOf, List.filterMap_eq_nil_iff.mpr ?_]
  · intro e he
    obtain ⟨t2, w, ts, rfl⟩ := hall e he
    rfl

/-- Whether the sync of one file returns without raising. -/
def fileOkB (env : Env) (config : Config) (table_spec : TableSpec)
    (stream : StreamDef) (f : S3File) : Bool :=
  match sync_table_file env config f.key table_spec stream with
  | .ok _ _ => true
  | .err _ _ => false

/-- The trace of a run of the per-file loop in which every file succeeds: per
file, its file-sync trace followed immediately by the persistence of the state
carrying that file's bookmark. -/
def goodTrace (env : Env) (config : Config) (table_spec : TableSpec)
    (stream : StreamDef) (table_name : String) :
    List S3File → SState → List Event
  | [], _ => []
  | f :: rest, state =>
    traceOf (sync_table_file env config f.key table_spec stream)
      ++ Event.wroteState
          (write_bookmark state table_name "modified_since" (isoformat f.last_modified))
        :: goodTrace env config table_spec stream table_name rest
            (write_bookmark state table_name "modified_since" (isoformat f.last_modified))

/-- When every file of the list syncs successfully, the loop returns `ok` and
its trace is the good trace. -/
theorem loop_ok (env : Env) (config : Config) (table_spec : TableSpec)
    (stream : StreamDef) (table_name : String) (fs : List S3File) :
    ∀ (state : SState) (acc : Nat),
    (∀ f ∈ fs, fileOkB env config table_spec stream f = true) →
    ∃ n state2,
      syncFilesLoop env config table_spec stream table_name fs state acc
        = .ok (n, state2) (goodTrace env config table_spec stream table_name fs state) := by
  induction fs with
  | nil =>
    intro state acc h
    exact ⟨acc, state, by simp [syncFilesLoop, goodTrace]⟩
  | cons f rest ih =>
    intro state acc h
    have hf := h f (by simp)
    cases hst : sync_table_file env config f.key table_spec stream with
    | err e tr => simp [fileOkB, hst] at hf
    | ok n tr =>
      obtain ⟨m, st2, hrec⟩ := ih
        (write_bookmark state table_name "modified_since" (isoformat f.last_modified))
        (acc + n) (fun g hg => h g (List.mem_cons_of_mem f hg))
      exact ⟨m, st2, by simp [syncFilesLoop, hst, hrec, goodTrace, traceOf]⟩

/-- When the files up to the first failing one succeed and that file raises,
the loop propagates the same exception; its trace is the good trace of the
completed files followed by the failing file's trace. -/
theorem loop_err (env : Env) (config : Config) (table_spec : TableSpec)
    (stream : StreamDef) (table_name : String) (gs : List S3File) :
    ∀ (f : S3File) (rest : List S3File) (state : SState) (acc : Nat)
      (e : PyError) (trf : List Event),
    (∀ g ∈ gs, fileOkB env config table_spec stream g = true) →
    sync_table_file env config f.key table_spec stream = .err e trf →
    syncFilesLoop env config table_spec stream table_name (gs ++ f :: rest) state acc
      = .err e (goodTrace env config table_spec stream table_name gs state ++ trf) := by
  induction gs with
  | nil =>
    intro f rest state acc e trf hgs hf
    simp [syncFilesLoop, hf, goodTrace]
  | cons g gs2 ih =>
    intro f rest state acc e trf hgs hf
    have hg := hgs g (by simp)
    cases hst : sync_table_file env config g.key table_spec stream with
    | err e2 tr2 => simp [fileOkB, hst] at hg
    | ok n tr2 =>
      have hrec := ih f rest
        (write_bookmark state table_name "modified_since" (isoformat g.last_modified))
        (acc + n) e trf (fun x hx => hgs x (List.mem_cons_of_mem g hx)) hf
      simp [syncFilesLoop, hst, hrec, goodTrace, traceOf]

/-- In the good trace each completed file contributes exactly one persisted
state, whose bookmark is that file's timestamp in isoformat. -/
theorem stateBms_goodTrace (env : Env) (config : Config) (table_spec : TableSpec)
    (stream : StreamDef) (table_name : String) (fs : List S3File) :
    ∀ state : SState,
    stateBms table_name (goodTrace env config table_spec stream table_name fs state)
      = fs.map (fun f => some (isoformat f.last_modified)) := by
  induction fs with
  | nil => intro state; simp [goodTrace, stateBms_nil]
  | cons f rest ih =>
    intro state
    rw [goodTrace, stateBms_append, stateBms_sync_table_file, stateBms_state,
      get_write_bookmark, ih]
    simp

/-- The open/persist skeleton of the good trace alternates: each file is
opened, then the state is persisted, before the next file is opened. -/
theorem obsOf_goodTrace (env : Env) (config : Config) (table_spec : TableSpec)
    (stream : StreamDef) (table_name : String) (fs : List S3File) :
    ∀ state : SState,
    obsOf (goodTrace env config table_spec stream table_name fs state)
      = (fs.map (fun f => [Obs.opened f.key, Obs.persisted])).flatten := by
  induction fs with
  | nil => intro state; simp [goodTrace, obsOf_nil]
  | cons f rest ih =>
    intro state
    rw [goodTrace, obsOf_append, obsOf_sync_table_file, obsOf_state, ih]
    simp

/-- The files opened along the good trace are exactly the listed files, in
order. -/
theorem openedKeys_goodTrace (env : Env) (config : Config) (table_spec : TableSpec)
    (stream : StreamDef) (table_name : String) (fs : List S3File) :
    ∀ state : SState,
    openedKeys (goodTrace env config table_spec stream table_name fs state)
      = fs.map (fun f => f.key) := by
  induction fs with
  | nil => intro state; simp [goodTrace, openedKeys_nil]
  | cons f rest ih =>
    intro state
    rw [goodTrace, openedKeys_append, openedKeys_sync_table_file, openedKeys_state, ih]
    simp

/-- Either every element of a list satisfies the predicate, or the list splits
at the first element that does not. -/
theorem all_or_first_fail {α : Type} (p : α → Bool) :
    ∀ l : List α, (∀ x ∈ l, p x = true)
      ∨ ∃ gs x rest, l = gs ++ x :: rest ∧ (∀ g ∈ gs, p g = true) ∧ p x = false := by
  intro l
  induction l with
  | nil => left; simp
  | cons a l2 ih =>
    cases ha : p a with
    | false => right; exact ⟨[], a, l2, by simp, by simp, ha⟩
    | true =>
      rcases ih with hall | ⟨gs, x, rest, heq, hgs, hx⟩
      · left
        intro y hy
        rcases List.mem_cons.mp hy with rfl | hy2
        · exact ha
        · exact hall y hy2
      · right
        refine ⟨a :: gs, x, rest, by simp [heq], ?_, hx⟩
        intro g hg
        rcases List.mem_cons.mp hg with rfl | hg2
        · exact ha
        · exact hgs g hg2

/-- The processed file list is sorted by modification time. -/
theorem sorted_processedFiles (env : Env) (config : Config) (state : SState)
    (table_spec : TableSpec) :
    List.Sorted byModTime (processedFiles env config state table_spec) :=
  List.sorted_insertionSort byModTime _

/-- The modification times of any prefix of the processed files form a
non-decreasing chain. -/
theorem chain_take_processedFiles (env : Env) (config : Config) (state : SState)
    (table_spec : TableSpec) (k : Nat) :
    List.Chain' (fun a b : Timestamp => a ≤ b)
      (((processedFiles env config state table_spec).take k).map
        (fun f => f.last_modified)) := by
  have hp : List.Pairwise byModTime (processedFiles env config state table_spec) :=
    sorted_processedFiles env config state table_spec
  have ht : List.Pairwise byModTime ((processedFiles env config state table_spec).take k) :=
    List.Pairwise.sublist (List.take_sublist k _) hp
  have hm : List.Pairwise (fun a b : Timestamp => a ≤ b)
      (((processedFiles env config state table_spec).take k).map (fun f => f.last_modified)) :=
    List.pairwise_map.mpr (ht.imp (fun h => h))
  exact List.Pairwise.chain' hm

/-- Taking one element past an initial segment. -/
theorem take_append_cons {α : Type} (gs : List α) (x : α) (rest : List α) :
    (gs ++ x :: rest).take (gs.length + 1) = gs ++ [x] := by
  induction gs with
  | nil => simp
  | cons a gs2 ih => simp [List.take, ih]

/-- Claim C1: along any run of `sync_stream` there is a prefix of the
processed files (all of them when no file raises) such that, for each file of
the prefix in order, the persisted state carries that file's modification
timestamp in isoformat as the table's `modified_since` bookmark; the
open/persist skeleton of the trace shows each persistence happening after the
file and before the next file is opened (at most one further file is opened,
with no persistence, when it raises); and the bookmarked timestamps are
monotonically non-decreasing across the successive persistences. -/
theorem bookmark_per_completed_file (env : Env) (config : Config) (state : SState)
    (table_spec : TableSpec) (stream : StreamDef) :
    ∃ k, k ≤ (processedFiles env config state table_spec).length
    ∧ stateBms (tableNameOf config table_spec)
          (traceOf (sync_stream env config state table_spec stream))
        = ((processedFiles env config state table_spec).take k).map
            (fun f => some (isoformat f.last_modified))
    ∧ (obsOf (traceOf (sync_stream env config state table_spec stream))
          = (((processedFiles env config state table_spec).take k).map
              (fun f => [Obs.opened f.key, Obs.persisted])).flatten
        ∨ ∃ key, obsOf (traceOf (sync_stream env config state table_spec stream))
          = (((processedFiles env config state table_spec).take k).map
              (fun f => [Obs.opened f.key, Obs.persisted])).flatten ++ [Obs.opened key])
    ∧ List.Chain' (fun a b : Timestamp => a ≤ b)
        (((processedFiles env config state table_spec).take k).map
          (fun f => f.last_modified)) := by
  rcases all_or_first_fail (fileOkB env config table_spec stream)
      (processedFiles env config state table_spec) with hall | ⟨gs, x, rest, heq, hgs, hx⟩
  · obtain ⟨n, st2, hloop⟩ := loop_ok env config table_spec stream
      (tableNameOf config table_spec) (processedFiles env config state table_spec)
      state 0 hall
    refine ⟨(processedFiles env config state table_spec).length, le_refl _, ?_, Or.inl ?_,
      chain_take_processedFiles env config state table_spec _⟩
    · rw [sync_stream_eq, hloop]
      simp only [traceOf, stateBms_listed, List.take_length]
      exact stateBms_goodTrace env config table_spec stream _ _ state
    · rw [sync_stream_eq, hloop]
      simp only [traceOf, obsOf_listed, List.take_length]
      exact obsOf_goodTrace env config table_spec stream _ _ state
  · have hxe : ∃ e trf, sync_table_file env config x.key table_spec stream = .err e trf := by
      cases hst : sync_table_file env config x.key table_spec stream with
      | ok n tr => simp [fileOkB, hst] at hx
      | err e trf => exact ⟨e, trf, rfl⟩
    obtain ⟨e, trf, hst⟩ := hxe
    have hloop := loop_err env config table_spec stream (tableNameOf config table_spec)
      gs x rest state 0 e trf hgs hst
    have htrf : stateBms (tableNameOf config table_spec) trf = [] := by
      have h2 := stateBms_sync_table_file env config x.key table_spec stream
        (tableNameOf config table_spec)
      rw [hst] at h2
      simpa [traceOf] using h2
    have hobstrf : obsOf trf = [Obs.opened x.key] := by
      have h2 := obsOf_sync_table_file env config x.key table_spec stream
      rw [hst] at h2
      simpa [traceOf] using h2
    refine ⟨gs.length, ?_, ?_, Or.inr ⟨x.key, ?_⟩,
      chain_take_processedFiles env config state table_spec _⟩
    · rw [heq]
      simp
    · rw [sync_stream_eq, heq, hloop]
      simp only [traceOf, stateBms_listed, stateBms_append]
      rw [List.take_left, htrf, List.append_nil]
      exact stateBms_goodTrace env config table_spec stream _ _ state
    · rw [sync_stream_eq, heq, hloop]
      simp only [traceOf, obsOf_listed, obsOf_append]
      rw [List.take_left, hobstrf]
      rw [obsOf_goodTrace env config table_spec stream _ _ state]

/-- Claim C2: when the files before position `n` of the processed (ascending)
order all sync successfully and the file at position `n` raises, the exception
propagates unchanged out of `sync_stream`, and the persisted bookmarks are
exactly those of the first `n` files — the last persisted bookmark is file
`n-1`'s timestamp, and for `n = 0` nothing is persisted at all, leaving the
pre-sync state. -/
theorem first_failing_file (env : Env) (config : Config) (state : SState)
    (table_spec : TableSpec) (stream : StreamDef) (n : Nat) (e : PyError)
    (trf : List Event)
    (hn : n < (processedFiles env config state table_spec).length)
    (hprev : ∀ g ∈ (processedFiles env config state table_spec).take n,
        fileOkB env config table_spec stream g = true)
    (hfail : sync_table_file env config
        ((processedFiles env config state table_spec).get ⟨n, hn⟩).key table_spec stream
      = .err e trf) :
    ∃ tr, sync_stream env config state table_spec stream = .err e tr
    ∧ stateBms (tableNameOf config table_spec) tr
        = ((processedFiles env config state table_spec).take n).map
            (fun f => some (isoformat f.last_modified)) := by
  have hsplit : processedFiles env config state table_spec
      = (processedFiles env config state table_spec).take n
        ++ ((processedFiles env config state table_spec).get ⟨n, hn⟩
            :: (processedFiles env config state table_spec).drop (n + 1)) := by
    conv_lhs => rw [← List.take_append_drop n (processedFiles env config state table_spec)]
    rw [List.drop_eq_getElem_cons hn]
    rfl
  have hloop := loop_err env config table_spec stream (tableNameOf config table_spec)
    ((processedFiles env config state table_spec).take n)
    ((processedFiles env config state table_spec).get ⟨n, hn⟩)
    ((processedFiles env config state table_spec).drop (n + 1))
    state 0 e trf hprev hfail
  have htrf : stateBms (tableNameOf config table_spec) trf = [] := by
    have h2 := stateBms_sync_table_file env config
      ((processedFiles env config state table_spec).get ⟨n, hn⟩).key table_spec stream
      (tableNameOf config table_spec)
    rw [hfail] at h2
    simpa [traceOf] using h2
  rw [← hsplit] at hloop
  refine ⟨Event.listedFiles (resolvedWatermark env config state (tableNameOf config table_spec))
      :: (goodTrace env config table_spec stream (tableNameOf config table_spec)
            ((processedFiles env config state table_spec).take n) state ++ trf), ?_, ?_⟩
  · rw [sync_stream_eq, hloop]
  · rw [stateBms_listed, stateBms_append, htrf, List.append_nil]
    exact stateBms_goodTrace env config table_spec stream _ _ state

/-- Claim C3 (amended): the orchestrator invokes the file sync on a prefix of
the discovered files re-ordered ascending by modification time — the processed
order is a permutation of the discovery output, sorted non-decreasingly (not
strictly: ties are possible), and the keys opened along the trace are exactly
the keys of an initial segment of that sorted order (all of it when no file
raises, the completed files plus the failing one otherwise). -/
theorem files_in_ascending_order (env : Env) (config : Config) (state : SState)
    (table_spec : TableSpec) (stream : StreamDef) :
    List.Perm (processedFiles env config state table_spec)
      (discoveredFiles env config state table_spec)
    ∧ List.Sorted byModTime (processedFiles env config state table_spec)
    ∧ ∃ m, m ≤ (processedFiles env config state table_spec).length
        ∧ openedKeys (traceOf (sync_stream env config state table_spec stream))
            = ((processedFiles env config state table_spec).take m).map (fun f => f.key) := by
  refine ⟨List.perm_insertionSort byModTime _,
    sorted_processedFiles env config state table_spec, ?_⟩
  rcases all_or_first_fail (fileOkB env config table_spec stream)
      (processedFiles env config state table_spec) with hall | ⟨gs, x, rest, heq, hgs, hx⟩
  · obtain ⟨n, st2, hloop⟩ := loop_ok env config table_spec stream
      (tableNameOf config table_spec) (processedFiles env config state table_spec)
      state 0 hall
    refine ⟨(processedFiles env config state table_spec).length, le_refl _, ?_⟩
    rw [sync_stream_eq, hloop]
    simp only [traceOf, openedKeys_listed, List.take_length]
    exact openedKeys_goodTrace env config table_spec stream _ _ state
  · have hxe : ∃ e trf, sync_table_file env config x.key table_spec stream = .err e trf := by
      cases hst : sync_table_file env config x.key table_spec stream with
      | ok n tr => simp [fileOkB, hst] at hx
      | err e trf => exact ⟨e, trf, rfl⟩
    obtain ⟨e, trf, hst⟩ := hxe
    have hloop := loop_err env config table_spec stream (tableNameOf config table_spec)
      gs x rest state 0 e trf hgs hst
    have hoptrf : openedKeys trf = [x.key] := by
      have h2 := openedKeys_sync_table_file env config x.key table_spec stream
      rw [hst] at h2
      simpa [traceOf] using h2
    refine ⟨gs.length + 1, ?_, ?_⟩
    · rw [heq]
      simp only [List.length_append, List.length_cons]
      omega
    · rw [sync_stream_eq, heq, hloop]
      simp only [traceOf, openedKeys_listed, openedKeys_append]
      rw [take_append_cons, hoptrf]
      rw [openedKeys_goodTrace env config table_spec stream _ _ state]
      simp

/-- When every row of a list transforms successfully, the row loop emits one
record per row, in order, and returns the number of rows. -/
theorem rowLoop_all_ok (env : Env) (config : Config) (table_name : String)
    (stream : StreamDef) :
    ∀ rows : List Value,
    (∀ r ∈ rows, ∃ w, rowOutcome env config stream r = .ok w) →
    ∃ ws, List.Forall₂ (fun r w => rowOutcome env config stream r = .ok w) rows ws
      ∧ rowLoop env config table_name stream rows
          = .ok rows.length (ws.map (fun w => Event.wroteRecord table_name w env.now)) := by
  intro rows
  induction rows with
  | nil => intro h; exact ⟨[], List.Forall₂.nil, by simp [rowLoop]⟩
  | cons row rest ih =>
    intro h
    obtain ⟨w, hw⟩ := h row (by simp)
    obtain ⟨ws, hf2, hrl⟩ := ih (fun r hr => h r (List.mem_cons_of_mem row hr))
    refine ⟨w :: ws, List.Forall₂.cons hw hf2, ?_⟩
    simp [rowLoop, hw, hrl]

/-- Claim C7: for a file whose row iterator raises no parse error and whose
rows all pass validation, the file sync returns exactly the number of rows the
iterator yields and emits one record per row; the row reaching the transformer
is the normalized row exactly when the `set_empty_values_null` config flag is
set, and the raw row otherwise. -/
theorem file_sync_count (env : Env) (config : Config) (s3_path : String)
    (table_spec : TableSpec) (stream : StreamDef)
    (hparse : (env.get_row_iterator (env.get_file_handle config s3_path).raw_stream
        table_spec).2 = none)
    (hrows : ∀ r ∈ (env.get_row_iterator (env.get_file_handle config s3_path).raw_stream
        table_spec).1, ∃ w, rowOutcome env config stream r = .ok w) :
    (config.set_empty_values_null.getD false = true →
      ∀ r, rowOutcome env config stream r
        = match set_empty_values_null r with
          | .error e => .error e
          | .ok r2 => env.transform r2 stream.schema (env.metadata_to_map stream.metadata))
    ∧ (config.set_empty_values_null.getD false = false →
      ∀ r, rowOutcome env config stream r
        = env.transform r stream.schema (env.metadata_to_map stream.metadata))
    ∧ ∃ ws, List.Forall₂ (fun r w => rowOutcome env config stream r = .ok w)
          (env.get_row_iterator (env.get_file_handle config s3_path).raw_stream table_spec).1 ws
        ∧ sync_table_file env config s3_path table_spec stream
            = .ok (env.get_row_iterator (env.get_file_handle config s3_path).raw_stream
                  table_spec).1.length
                (.openedFile s3_path :: .setFieldSizeLimit ::
                  ws.map (fun w => Event.wroteRecord (tableNameOf config table_spec) w env.now)) := by
  refine ⟨?_, ?_, ?_⟩
  · intro hflag r
    simp [rowOutcome, hflag]
  · intro hflag r
    simp [rowOutcome, hflag]
  · obtain ⟨ws, hf2, hrl⟩ := rowLoop_all_ok env config (tableNameOf config table_spec)
      stream _ hrows
    exact ⟨ws, hf2, by simp [sync_table_file, hrl, hparse]⟩

/-- Claim C8 (amended): the watermark `sync_stream` hands to discovery — the
head event of its trace — is the parse of the table's `modified_since`
bookmark when the bookmark is present and non-empty, and the parse of the
config's global start date when the bookmark is absent; a present-but-empty
bookmark also falls back to the start date, because the code combines the two
with Python `or`. -/
theorem watermark_resolution (env : Env) (config : Config) (state : SState)
    (table_spec : TableSpec) (stream : StreamDef) :
    (traceOf (sync_stream env config state table_spec stream)).head?
      = some (.listedFiles (resolvedWatermark env config state (tableNameOf config table_spec)))
    ∧ (∀ b, get_bookmark state (tableNameOf config table_spec) "modified_since" = some b →
        b ≠ "" →
        resolvedWatermark env config state (tableNameOf config table_spec)
          = env.strptime_with_tz b)
    ∧ (get_bookmark state (tableNameOf config table_spec) "modified_since" = none →
        resolvedWatermark env config state (tableNameOf config table_spec)
          = env.strptime_with_tz config.start_date)
    ∧ (get_bookmark state (tableNameOf config table_spec) "modified_since" = some "" →
        resolvedWatermark env config state (tableNameOf config table_spec)
          = env.strptime_with_tz config.start_date) := by
  refine ⟨?_, ?_, ?_, ?_⟩
  · rw [sync_stream_eq]
    cases syncFilesLoop env config table_spec stream (tableNameOf config table_spec)
        (processedFiles env config state table_spec) state 0 with
    | ok r tr => rfl
    | err e tr => rfl
  · intro b hb hne
    simp [resolvedWatermark, pyOr, hb, hne]
  · intro hb
    simp [resolvedWatermark, pyOr, hb]
  · intro hb
    simp [resolvedWatermark, pyOr, hb]

/-- Claim C9 (amended): every invocation of the file sync acquires the file's
byte stream as its first observable action and never closes it — no exit path
(normal completion, parse failure, transform failure) emits a close. -/
theorem stream_never_closed (env : Env) (config : Config) (s3_path : String)
    (table_spec : TableSpec) (stream : StreamDef) :
    (traceOf (sync_table_file env config s3_path table_spec stream)).head?
        = some (.openedFile s3_path)
    ∧ ∀ s, Event.closedFile s ∉ traceOf (sync_table_file env config s3_path table_spec stream) := by
  obtain ⟨tr, htr, hall⟩ := sync_table_file_trace env config s3_path table_spec stream
  rw [htr]
  refine ⟨rfl, ?_⟩
  intro s hmem
  simp only [List.mem_cons] at hmem
  rcases hmem with h | h | h
  · exact Event.noConfusion h
  · exact Event.noConfusion h
  · obtain ⟨t, w, ts, heq⟩ := hall _ h
    exact Event.noConfusion heq

/-- Claim C10: when discovery returns no eligible files, `sync_stream` returns
a count of zero with the state unchanged, and its trace contains no bookmark
write and no state persistence — only the discovery listing itself. -/
theorem no_files_no_writes (env : Env) (config : Config) (state : SState)
    (table_spec : TableSpec) (stream : StreamDef)
    (h : discoveredFiles env config state table_spec = []) :
    sync_stream env config state table_spec stream
      = .ok (0, state)
          [.listedFiles (resolvedWatermark env config state (tableNameOf config table_spec))] := by
  rw [sync_stream_eq]
  rw [show processedFiles env config state table_spec = [] from by
    rw [processedFiles, h]; rfl]
  rfl

/-- A concrete run for claim C2: discovery returns two files out of order, the
earlier file has no rows, the later file has one row and the transformer
rejects it. -/
def env2 : Env :=
  ⟨fun _ _ _ => [⟨"b", 20⟩, ⟨"a", 10⟩], fun _ k => ⟨k⟩,
    fun s _ => if s == "b" then ([Value.null], none) else ([], none),
    fun _ _ _ => .error (.schemaError "bad"), fun m => m, fun _ => 0, 0⟩

def cfg2 : Config := ⟨"bucket", "2020-01-01", none, none⟩

def st2 : SState := ⟨[]⟩

def tspec2 : TableSpec := ⟨"t"⟩

def strm2 : StreamDef := ⟨Value.null, Value.null⟩

/-- Witness for claim C2: with two files (timestamps 10 and 20, discovery
unsorted) and the second failing on its row, the exception propagates out of
`sync_stream` and the only persisted bookmark is the first file's timestamp. -/
theorem first_failing_file_witness :
    ∃ tr, sync_stream env2 cfg2 st2 tspec2 strm2 = .err (.schemaError "bad") tr
    ∧ stateBms (tableNameOf cfg2 tspec2) tr
        = ((processedFiles env2 cfg2 st2 tspec2).take 1).map
            (fun f => some (isoformat f.last_modified)) :=
  first_failing_file env2 cfg2 st2 tspec2 strm2 1 (.schemaError "bad")
    [.openedFile "b", .setFieldSizeLimit] (by decide) (by decide) rfl

/-- A concrete run for claim C3: two discovered files share the modification
timestamp 5. -/
def env3 : Env :=
  ⟨fun _ _ _ => [⟨"a", 5⟩, ⟨"b", 5⟩], fun _ k => ⟨k⟩, fun _ _ => ([], none),
    fun r _ _ => .ok r, fun m => m, fun _ => 0, 0⟩

def cfg3 : Config := ⟨"bucket", "2020-01-01", none, none⟩

def st3 : SState := ⟨[]⟩

def tspec3 : TableSpec := ⟨"t"⟩

def strm3 : StreamDef := ⟨Value.null, Value.null⟩

/-- Counterexample to the strictness in claim C3: both files are opened, in an
order whose modification times are `[5, 5]` — ascending but not strictly
ascending. -/
theorem files_strict_order_cex :
    openedKeys (traceOf (sync_stream env3 cfg3 st3 tspec3 strm3))
      = (processedFiles env3 cfg3 st3 tspec3).map (fun f => f.key)
    ∧ (processedFiles env3 cfg3 st3 tspec3).map (fun f => f.last_modified) = [5, 5]
    ∧ ¬ List.Chain' (fun a b : Timestamp => a < b)
        ((processedFiles env3 cfg3 st3 tspec3).map (fun f => f.last_modified)) := by
  refine ⟨rfl, rfl, ?_⟩
  rw [show (processedFiles env3 cfg3 st3 tspec3).map (fun f => f.last_modified)
      = [5, 5] from rfl]
  intro h
  rcases List.chain'_cons.mp h with ⟨h5, _⟩
  exact lt_irrefl (5 : Int) h5

/-- A concrete run for claim C7: one file with one row whose `name` field is
blank, normalization enabled, identity transformer. -/
def row7 : Value := .dict (.cons "name" (.str "") (.cons "age" (.str "5") .nil))

/-- The row of the C7 run after normalization: the blank `name` is null. -/
def row7n : Value := .dict (.cons "name" .null (.cons "age" (.str "5") .nil))

def env7 : Env :=
  ⟨fun _ _ _ => [], fun _ k => ⟨k⟩, fun _ _ => ([row7], none),
    fun r _ _ => .ok r, fun m => m, fun _ => 0, 0⟩

def cfg7 : Config := ⟨"bucket", "2020-01-01", none, some true⟩

def tspec7 : TableSpec := ⟨"t"⟩

def strm7 : StreamDef := ⟨Value.null, Value.null⟩

/-- Witness for claim C7: the blank `name` field reaches the transformer as
null, one record is emitted and the returned count is the row count 1. -/
theorem file_sync_count_witness :
    rowOutcome env7 cfg7 strm7 row7 = .ok row7n
    ∧ ∃ ws, List.Forall₂ (fun r w => rowOutcome env7 cfg7 strm7 r = .ok w)
          (env7.get_row_iterator (env7.get_file_handle cfg7 "f").raw_stream tspec7).1 ws
        ∧ sync_table_file env7 cfg7 "f" tspec7 strm7
            = .ok (env7.get_row_iterator (env7.get_file_handle cfg7 "f").raw_stream
                  tspec7).1.length
                (.openedFile "f" :: .setFieldSizeLimit ::
                  ws.map (fun w => Event.wroteRecord (tableNameOf cfg7 tspec7) w env7.now)) :=
  ⟨rfl, (file_sync_count env7 cfg7 "f" tspec7 strm7 rfl
    (fun r hr => ⟨row7n, by
      have hr2 : r ∈ [row7] := hr
      rw [List.mem_singleton.mp hr2]
      rfl⟩)).2.2⟩

/-- A concrete state and environment for claim C8's witness: a present,
non-empty bookmark. -/
def env8w : Env :=
  ⟨fun _ _ _ => [], fun _ k => ⟨k⟩, fun _ _ => ([], none),
    fun r _ _ => .ok r, fun m => m, fun s => (s.length : Int), 0⟩

def cfg8w : Config := ⟨"bucket", "2020-01-01", none, none⟩

def st8w : SState := ⟨[("t", [("modified_since", "B")])]⟩

def tspec8w : TableSpec := ⟨"t"⟩

def strm8w : StreamDef := ⟨Value.null, Value.null⟩

/-- Witness for claim C8: with a present non-empty bookmark the watermark is
the parse of the bookmark, and it is what the trace's head event carries. -/
theorem watermark_resolution_witness :
    get_bookmark st8w (tableNameOf cfg8w tspec8w) "modified_since" = some "B"
    ∧ resolvedWatermark env8w cfg8w st8w (tableNameOf cfg8w tspec8w)
        = env8w.strptime_with_tz "B"
    ∧ (traceOf (sync_stream env8w cfg8w st8w tspec8w strm8w)).head?
        = some (.listedFiles (resolvedWatermark env8w cfg8w st8w (tableNameOf cfg8w tspec8w))) :=
  ⟨rfl, (watermark_resolution env8w cfg8w st8w tspec8w strm8w).2.1 "B" rfl (by decide),
    (watermark_resolution env8w cfg8w st8w tspec8w strm8w).1⟩

/-- A concrete state for the counterexample to claim C8 as stated: the
bookmark is present but is the empty string, and the parser distinguishes the
empty string from the start date. -/
def env8 : Env :=
  ⟨fun _ _ _ => [], fun _ k => ⟨k⟩, fun _ _ => ([], none),
    fun r _ _ => .ok r, fun m => m, fun s => (s.length : Int), 0⟩

def cfg8 : Config := ⟨"bucket", "2020", none, none⟩

def st8 : SState := ⟨[("t", [("modified_since", "")])]⟩

def tspec8 : TableSpec := ⟨"t"⟩

def strm8 : StreamDef := ⟨Value.null, Value.null⟩

/-- Counterexample to claim C8 as stated: the `modified_since` bookmark is
present (the empty string), yet the orchestrator hands discovery the parse of
the start date, not the parse of the bookmark — Python `or` treats the empty
string as absent. -/
theorem watermark_empty_bookmark_cex :
    get_bookmark st8 (tableNameOf cfg8 tspec8) "modified_since" = some ""
    ∧ (traceOf (sync_stream env8 cfg8 st8 tspec8 strm8)).head?
        = some (.listedFiles (env8.strptime_with_tz cfg8.start_date))
    ∧ env8.strptime_with_tz cfg8.start_date ≠ env8.strptime_with_tz "" :=
  ⟨rfl, rfl, by decide⟩

/-- A concrete run for claim C9: a file with no rows, syncing normally. -/
def env9 : Env :=
  ⟨fun _ _ _ => [], fun _ k => ⟨k⟩, fun _ _ => ([], none),
    fun r _ _ => .ok r, fun m => m, fun _ => 0, 0⟩

def cfg9 : Config := ⟨"bucket", "2020-01-01", none, none⟩

def tspec9 : TableSpec := ⟨"t"⟩

def strm9 : StreamDef := ⟨Value.null, Value.null⟩

/-- Counterexample to claim C9 as stated: this file sync completes normally,
its full trace is the opening of the byte stream and the field-size-limit
call, and no close of the stream occurs on this exit path. -/
theorem stream_not_closed_cex :
    sync_table_file env9 cfg9 "k" tspec9 strm9
      = .ok 0 [.openedFile "k", .setFieldSizeLimit]
    ∧ ∀ s, Event.closedFile s ∉ ([.openedFile "k", .setFieldSizeLimit] : List Event) := by
  refine ⟨rfl, ?_⟩
  intro s h
  simp at h

/-- A concrete run for claim C10: discovery returns no files. -/
def env10 : Env :=
  ⟨fun _ _ _ => [], fun _ k => ⟨k⟩, fun _ _ => ([], none),
    fun r _ _ => .ok r, fun m => m, fun _ => 0, 0⟩

def cfg10 : Config := ⟨"bucket", "2020-01-01", none, none⟩

def st10 : SState := ⟨[("u", [("modified_since", "7")])]⟩

def tspec10 : TableSpec := ⟨"t"⟩

def strm10 : StreamDef := ⟨Value.null, Value.null⟩

/-- Witness for claim C10: with no eligible files the run returns 0, the state
comes back unchanged, and nothing but the discovery listing is in the trace —
no bookmark write and no state persistence. -/
theorem no_files_no_writes_witness :
    sync_stream env10 cfg10 st10 tspec10 strm10
      = .ok (0, st10)
          [.listedFiles (resolvedWatermark env10 cfg10 st10 (tableNameOf cfg10 tspec10))] :=
  no_files_no_writes env10 cfg10 st10 tspec10 strm10 rfl
